import Mathlib

/-!
Verification of the race-outcome simulation and position-ranking engine of
the motorsport analytics dashboard (file `app/race_predictor.py`).

The four core functions are shallowly embedded:

* `build_perfect_lap_profile` — the historical-profile builder.  A pandas
  dataframe of lap rows becomes a `List LapRecord`; the `historical_races`
  dict `{year: {"laps": df}}` becomes a `List (Int × List LapRecord)`;
  the mutable `driver_performances` dict becomes a finite map embedded as a
  function `String → Option DriverPerf`, updated season by season with a
  left fold, exactly mirroring the loop structure of the source.
* `generate_simulated_race` — the stochastic lap-time generator.  The calls
  to `np.random.normal(0, std_dev * 0.5)` are modelled by an ambient stream
  `z : Nat → ℚ` of standard-normal draws, consumed sequentially (numpy's
  `normal(0, scale)` returns `scale * standard_draw`); the k-th draw of a
  run is `z k`, so the variance added at that point is
  `std_dev * (1/2) * z k`.  Lap durations are exact rationals.
* `calculate_race_positions` and `predict_podium` — the rankers.  The pandas
  `sort_values("lap_duration")` is modelled by a deterministic comparison
  sort on the lap duration key (`List.insertionSort`); the source's default
  quicksort leaves the relative order of equal durations
  implementation-defined, so no theorem below relies on the tie order.
  A `List SimLap` models a dataframe built by `pd.DataFrame(records)`,
  which carries the `lap_number` column exactly when the record list is
  nonempty: on the column-less empty frame the column access
  `simulated_df["lap_number"]` in `calculate_race_positions` raises
  `KeyError`, embedded as the `none` result.  Display-only columns
  (driver name, team, medal emoji strings) are not part of the numeric
  model.

`np.std` is the square root of the population variance; profiles carry the
exact rational population variance (`variance` field) and the standard
deviation is recovered as `Real.sqrt` of it where a statement needs it.
-/

/-- Minimum of a list of rationals, `0` on the empty list.  Embeds
`lap_times.min()`, which the source only evaluates on nonempty arrays. -/
def listMin : List ℚ → ℚ
  | [] => 0
  | x :: xs => xs.foldl min x

/-- Running minimum against an optional sentinel: `none` plays the role of
the `float('inf')` initial value of `driver_performances[...]["best_lap"]`. -/
def minInf : Option ℚ → ℚ → ℚ
  | none, x => x
  | some b, x => min b x

/-- Arithmetic mean, embedding `np.mean` (only ever applied to nonempty
sample lists by the source). -/
def listMean (xs : List ℚ) : ℚ := xs.sum / xs.length

/-- Population variance (mean squared deviation from the mean).  `np.std`
is the square root of this quantity. -/
def listPopVar (xs : List ℚ) : ℚ := listMean (xs.map (fun t => (t - listMean xs) ^ 2))

/-- Population standard deviation, the value `np.std` returns. -/
noncomputable def popStd (xs : List ℚ) : ℝ := Real.sqrt (listPopVar xs)

/-- Median, embedding `np.median`: sort ascending; middle element for odd
length, mean of the two middle elements for even length. -/
def listMedian (xs : List ℚ) : ℚ :=
  let s := List.insertionSort (· ≤ ·) xs
  let n := xs.length
  if n % 2 = 1 then s.getD (n / 2) 0 else (s.getD (n / 2 - 1) 0 + s.getD (n / 2) 0) / 2

/-- Maximum of a list of naturals, `0` on the empty list.  Embeds
`simulated_df["lap_number"].max()`. -/
def listMaxNat (xs : List Nat) : Nat := xs.foldl max 0

/-- One row of a historical lap dataframe, restricted to the columns the
profile builder reads (`driver_number`, `lap_duration`) plus the
`is_pit_out_lap` flag carried by the data source.  A `none` duration is a
null/NaN cell (`notna` fails). -/
structure LapRecord where
  driver_number : String
  lap_number : Nat
  lap_duration : Option ℚ
  is_pit_out_lap : Bool
  deriving DecidableEq

/-- One entry of the `perfect_profile` dict built per driver.  The source
stores `std_dev = np.std(weighted_times)`; we carry the exact population
variance instead and expose the standard deviation as its real square
root (`ProfileStats.std_dev`). -/
structure ProfileStats where
  best_lap : ℚ
  average_lap : ℚ
  variance : ℚ
  median_lap : ℚ
  races_count : Nat
  deriving DecidableEq

/-- Standard deviation stored in the profile: `np.std` of the weighted
samples, i.e. the square root of the population variance. -/
noncomputable def ProfileStats.std_dev (p : ProfileStats) : ℝ := Real.sqrt p.variance

/-- Accumulator value of the `driver_performances` dict for one driver. -/
structure DriverPerf where
  best_lap : Option ℚ
  weighted_lap_times : List ℚ
  years_raced : List Int
  deriving DecidableEq

/-- Fresh accumulator entry: `{"best_lap": float('inf'),
"weighted_lap_times": [], "years_raced": []}`. -/
def perfInit : DriverPerf :=
  { best_lap := none, weighted_lap_times := [], years_raced := [] }

/-- Season recency weight table `year_weights` with the `.get(year, 1.0)`
default. -/
def year_weights (year : Int) : ℚ :=
  if year = 2023 then 1 else if year = 2024 then 2 else if year = 2025 then 3 else 1

/-- Valid laps of a season: `laps_df[laps_df["lap_duration"].notna()]`. -/
def seasonValid (laps : List LapRecord) : List LapRecord :=
  laps.filter (fun l => l.lap_duration.isSome)

/-- Lap durations of one driver among a season's valid laps:
`valid_laps[valid_laps["driver_number"] == driver_num]["lap_duration"]`. -/
def driverSeasonTimes (laps : List LapRecord) (d : String) : List ℚ :=
  ((seasonValid laps).filter (fun l => decide (l.driver_number = d))).map
    (fun l => l.lap_duration.getD 0)

/-- Effect of one season's inner loop on the `driver_performances` dict,
viewed as a map: a driver with no valid lap this season is untouched
(they never appear in `valid_laps["driver_number"].unique()`); otherwise
their entry is created if absent and then extended with this season's
minimum, weighted times and year. -/
def seasonStep (st : String → Option DriverPerf) (s : Int × List LapRecord) :
    String → Option DriverPerf :=
  fun d =>
    let ts := driverSeasonTimes s.2 d
    if ts.isEmpty then st d
    else
      let prev := (st d).getD perfInit
      some { best_lap := some (minInf prev.best_lap (listMin ts)),
             weighted_lap_times :=
               prev.weighted_lap_times ++ ts.map (fun t => t * year_weights s.1),
             years_raced := prev.years_raced ++ [s.1] }

/-- The `driver_performances` dict after all seasons are processed. -/
def driverPerformances (historical_races : List (Int × List LapRecord)) :
    String → Option DriverPerf :=
  historical_races.foldl seasonStep (fun _ => none)

/-- Embedding of `build_perfect_lap_profile`: fold the seasons through the
accumulator and finalize each driver entry with the statistics of the
source's last loop.  The `if not historical_races: return {}` guard is
subsumed by the empty fold. -/
def build_perfect_lap_profile (historical_races : List (Int × List LapRecord)) :
    String → Option ProfileStats :=
  fun d =>
    (driverPerformances historical_races d).map (fun perf =>
      { best_lap := perf.best_lap.getD 0,
        average_lap := listMean perf.weighted_lap_times,
        variance := listPopVar perf.weighted_lap_times,
        median_lap := listMedian perf.weighted_lap_times,
        races_count := perf.years_raced.length })

/-- Raw (unweighted) non-null lap durations of a driver across all
processed seasons, in processing order. -/
def rawLapTimes (historical_races : List (Int × List LapRecord)) (d : String) : List ℚ :=
  historical_races.flatMap (fun s => driverSeasonTimes s.2 d)

/-- Recency-weighted samples of a driver across all processed seasons:
each duration multiplied by its season's weight, in processing order. -/
def weightedLapTimes (historical_races : List (Int × List LapRecord)) (d : String) : List ℚ :=
  historical_races.flatMap
    (fun s => (driverSeasonTimes s.2 d).map (fun t => t * year_weights s.1))

/-- Seasons in which a driver contributed at least one valid lap. -/
def seasonsRaced (historical_races : List (Int × List LapRecord)) (d : String) : List Int :=
  (historical_races.filter (fun s => !(driverSeasonTimes s.2 d).isEmpty)).map (fun s => s.1)

/-- The two profile fields `generate_simulated_race` reads
(`profile["best_lap"]`, `profile["std_dev"]`); the simulator accepts any
mapping carrying them. -/
structure SimProfile where
  best_lap : ℚ
  std_dev : ℚ
  deriving DecidableEq

/-- One row of the simulated dataframe, restricted to the computed columns
(`driver_number`, `lap_number`, `lap_duration`); `driver_name` is display
metadata copied from the name map and `simulated` is constantly true. -/
structure SimLap where
  driver_number : String
  lap_number : Nat
  lap_duration : ℚ
  deriving DecidableEq

/-- Lap multiplier policy: `1.02` on lap 1, else `1.01` when
`lap_num > num_laps - 5` (Python integer arithmetic, hence the `Int`
subtraction), else `1.0`. -/
def lapMultiplier (lap_num num_laps : Nat) : ℚ :=
  if lap_num = 1 then 102 / 100
  else if (num_laps : Int) - 5 < (lap_num : Int) then 101 / 100
  else 1

/-- Lap time of one iteration of the inner loop:
`max(best_lap * lap_multiplier + variance, best_lap)` where the variance is
`np.random.normal(0, std_dev * 0.5) = std_dev * 0.5 * z` for a
standard-normal draw `z`. -/
def simLapTime (best std : ℚ) (lap_num num_laps : Nat) (z : ℚ) : ℚ :=
  max (best * lapMultiplier lap_num num_laps + std * (1 / 2) * z) best

/-- Rows produced for one driver: the inner `for lap_num in
range(1, num_laps + 1)` loop, drawing `z i` at lap `i + 1`. -/
def driverRace (d : String) (p : SimProfile) (num_laps : Nat) (z : Nat → ℚ) : List SimLap :=
  (List.range num_laps).map (fun i =>
    { driver_number := d, lap_number := i + 1,
      lap_duration := simLapTime p.best_lap p.std_dev (i + 1) num_laps (z i) })

/-- Embedding of `generate_simulated_race`: the outer loop over
`perfect_profile.items()`, consuming the normal-draw stream sequentially —
each driver uses `num_laps` draws, so the next driver sees the stream
shifted by `num_laps`.  The `if not perfect_profile: return pd.DataFrame()`
guard is the empty case of the recursion. -/
def generate_simulated_race :
    List (String × SimProfile) → Nat → (Nat → ℚ) → List SimLap
  | [], _, _ => []
  | (d, p) :: rest, num_laps, z =>
      driverRace d p num_laps z ++
        generate_simulated_race rest num_laps (fun k => z (num_laps + k))

/-- Sort key of `sort_values("lap_duration")` on simulated rows. -/
def byTime (a b : SimLap) : Prop := a.lap_duration ≤ b.lap_duration

instance : DecidableRel byTime := fun a b =>
  inferInstanceAs (Decidable (a.lap_duration ≤ b.lap_duration))

instance : IsTotal SimLap byTime := ⟨fun a b => le_total a.lap_duration b.lap_duration⟩

instance : IsTrans SimLap byTime := ⟨fun _ _ _ => le_trans⟩

/-- One row of the positions dataframe built by `calculate_race_positions`. -/
structure PositionEntry where
  lap_number : Nat
  driver_number : String
  position : Nat
  lap_time : ℚ
  deriving DecidableEq

/-- Distinct lap numbers in first-occurrence order:
`simulated_df["lap_number"].unique()`. -/
def uniqueLaps (df : List SimLap) : List Nat :=
  df.foldl (fun acc l => if l.lap_number ∈ acc then acc else acc ++ [l.lap_number]) []

/-- Position rows of one lap group in sorted order, numbering positions
`p, p + 1, ...`: the `lap_data["position"] = range(1, len(lap_data) + 1)`
assignment followed by the row-emitting loop. -/
def withPositions (lap : Nat) : List SimLap → Nat → List PositionEntry
  | [], _ => []
  | r :: rest, p =>
      { lap_number := lap, driver_number := r.driver_number, position := p,
        lap_time := r.lap_duration } :: withPositions lap rest (p + 1)

/-- Rows of one lap of the simulated race:
`simulated_df[simulated_df["lap_number"] == lap]`. -/
def lapGroup (df : List SimLap) (lap : Nat) : List SimLap :=
  df.filter (fun r => decide (r.lap_number = lap))

/-- Rows emitted for one lap of `calculate_race_positions`: filter the lap
group, sort it ascending by `lap_duration` and number positions from 1.
The sort is one admissible realization of `sort_values("lap_duration")`;
its tie order is not guaranteed by the source and no theorem uses it. -/
def lapPositions (df : List SimLap) (lap : Nat) : List PositionEntry :=
  withPositions lap (List.insertionSort byTime (lapGroup df lap)) 1

/-- Per-lap loop of `calculate_race_positions`: concatenate the position
rows over the distinct laps in first-occurrence order. -/
def rankPositionsRows (df : List SimLap) : List PositionEntry :=
  (uniqueLaps df).flatMap (lapPositions df)

/-- Embedding of `calculate_race_positions`.  The function starts with
`simulated_df["lap_number"].unique()`: on the column-less empty frame that
`generate_simulated_race` returns for an empty profile map, this column
access raises `KeyError`, modelled as `none`; on a nonempty record-built
frame the column exists and the per-lap loop runs. -/
def calculate_race_positions (df : List SimLap) : Option (List PositionEntry) :=
  if df.isEmpty then none else some (rankPositionsRows df)

/-- One row of the podium dataframe, restricted to the computed values:
1-based position, driver number, overall best simulated lap and final-lap
time (the source additionally renders them as display strings). -/
structure PodiumEntry where
  position : Nat
  driver_number : String
  best_lap : ℚ
  final_lap_time : ℚ
  deriving DecidableEq

/-- Lap durations of one driver across the whole simulated race:
`simulated_df[simulated_df["driver_number"] == driver_num]["lap_duration"]`. -/
def driverTimes (df : List SimLap) (d : String) : List ℚ :=
  (df.filter (fun l => decide (l.driver_number = d))).map (fun l => l.lap_duration)

/-- Maximum lap number present: `simulated_df["lap_number"].max()`. -/
def finalLap (df : List SimLap) : Nat := listMaxNat (df.map (fun l => l.lap_number))

/-- Rows of the final lap: `simulated_df[simulated_df["lap_number"] == final_lap]`. -/
def finalLapGroup (df : List SimLap) : List SimLap :=
  df.filter (fun l => decide (l.lap_number = finalLap df))

/-- Podium rows built from the already-sorted, already-truncated final-lap
rows, numbering positions `p, p + 1, ...`: the
`for idx, (position, (_, row)) in enumerate(zip(range(1, 4), ...), 1)` loop
with its per-driver overall-best lookup. -/
def withPodium (df : List SimLap) : List SimLap → Nat → List PodiumEntry
  | [], _ => []
  | r :: rest, p =>
      { position := p, driver_number := r.driver_number,
        best_lap := listMin (driverTimes df r.driver_number),
        final_lap_time := r.lap_duration } :: withPodium df rest (p + 1)

/-- Embedding of `predict_podium`: empty in, empty out; otherwise sort the
final lap's rows by duration and keep the first three. -/
def predict_podium (df : List SimLap) : List PodiumEntry :=
  if df.isEmpty then []
  else withPodium df ((List.insertionSort byTime (finalLapGroup df)).take 3) 1

lemma foldl_min_out (l : List ℚ) : ∀ a b : ℚ, l.foldl min (min a b) = min a (l.foldl min b) := by
  induction l with
  | nil => intro a b; rfl
  | cons c l ih =>
    intro a b
    show l.foldl min (min (min a b) c) = min a (l.foldl min (min b c))
    rw [min_assoc, ih a (min b c)]

lemma foldl_min_eq (ys : List ℚ) (hy : ys ≠ []) (a : ℚ) :
    ys.foldl min a = min a (listMin ys) := by
  cases ys with
  | nil => exact absurd rfl hy
  | cons b ys =>
    show ys.foldl min (min a b) = min a (listMin (b :: ys))
    exact foldl_min_out ys a b

lemma foldl_min_le_init (l : List ℚ) : ∀ a : ℚ, l.foldl min a ≤ a := by
  induction l with
  | nil => intro a; exact le_refl a
  | cons c l ih =>
    intro a
    exact le_trans (ih (min a c)) (min_le_left a c)

lemma foldl_min_le (l : List ℚ) : ∀ (a x : ℚ), x ∈ l → l.foldl min a ≤ x := by
  induction l with
  | nil => intro a x hx; exact absurd hx (List.not_mem_nil x)
  | cons c l ih =>
    intro a x hx
    rcases List.mem_cons.mp hx with h | h
    · show l.foldl min (min a c) ≤ x
      rw [h]
      exact le_trans (foldl_min_le_init l (min a c)) (min_le_right a c)
    · exact ih (min a c) x h

lemma foldl_min_mem (l : List ℚ) : ∀ a : ℚ, l.foldl min a = a ∨ l.foldl min a ∈ l := by
  induction l with
  | nil => intro a; exact Or.inl rfl
  | cons c l ih =>
    intro a
    rcases ih (min a c) with h | h
    · rcases min_choice a c with h2 | h2
      · exact Or.inl (h.trans h2)
      · exact Or.inr (List.mem_cons.mpr (Or.inl (h.trans h2)))
    · exact Or.inr (List.mem_cons_of_mem c h)

lemma listMin_le {l : List ℚ} : ∀ x ∈ l, listMin l ≤ x := by
  cases l with
  | nil => simp
  | cons y ys =>
    intro x hx
    show ys.foldl min y ≤ x
    rcases List.mem_cons.mp hx with h | h
    · exact h ▸ foldl_min_le_init ys y
    · exact foldl_min_le ys y x h

lemma listMin_mem {l : List ℚ} (h : l ≠ []) : listMin l ∈ l := by
  cases l with
  | nil => exact absurd rfl h
  | cons y ys =>
    show ys.foldl min y ∈ y :: ys
    rcases foldl_min_mem ys y with h2 | h2
    · rw [h2]
      exact List.mem_cons_self _ _
    · exact List.mem_cons_of_mem y h2

lemma listMin_append {xs ys : List ℚ} (hx : xs ≠ []) (hy : ys ≠ []) :
    listMin (xs ++ ys) = min (listMin xs) (listMin ys) := by
  cases xs with
  | nil => exact absurd rfl hx
  | cons a xs =>
    show (xs ++ ys).foldl min a = min (listMin (a :: xs)) (listMin ys)
    rw [List.foldl_append, foldl_min_eq ys hy]
    rfl

lemma minInf_min (o : Option ℚ) (x y : ℚ) : min (minInf o x) y = minInf o (min x y) := by
  cases o with
  | none => rfl
  | some b => exact min_assoc b x y

lemma le_foldl_max_init (l : List Nat) : ∀ a : Nat, a ≤ l.foldl max a := by
  induction l with
  | nil => intro a; exact le_refl a
  | cons c l ih =>
    intro a
    exact le_trans (le_max_left a c) (ih (max a c))

lemma le_foldl_max (l : List Nat) : ∀ (a x : Nat), x ∈ l → x ≤ l.foldl max a := by
  induction l with
  | nil => intro a x hx; exact absurd hx (List.not_mem_nil x)
  | cons c l ih =>
    intro a x hx
    rcases List.mem_cons.mp hx with h | h
    · show x ≤ l.foldl max (max a c)
      rw [h]
      exact le_trans (le_max_right a c) (le_foldl_max_init l (max a c))
    · exact ih (max a c) x h

lemma foldl_max_mem (l : List Nat) : ∀ a : Nat, l.foldl max a = a ∨ l.foldl max a ∈ l := by
  induction l with
  | nil => intro a; exact Or.inl rfl
  | cons c l ih =>
    intro a
    rcases ih (max a c) with h | h
    · rcases max_choice a c with h2 | h2
      · exact Or.inl (h.trans h2)
      · exact Or.inr (List.mem_cons.mpr (Or.inl (h.trans h2)))
    · exact Or.inr (List.mem_cons_of_mem c h)

lemma le_listMaxNat {l : List Nat} : ∀ x ∈ l, x ≤ listMaxNat l :=
  fun x hx => le_foldl_max l 0 x hx

lemma listMaxNat_mem {l : List Nat} (h : l ≠ []) : listMaxNat l ∈ l := by
  cases l with
  | nil => exact absurd rfl h
  | cons y ys =>
    show ys.foldl max (max 0 y) ∈ y :: ys
    rw [Nat.zero_max]
    rcases foldl_max_mem ys y with h2 | h2
    · rw [h2]
      exact List.mem_cons_self _ _
    · exact List.mem_cons_of_mem y h2

lemma rawLapTimes_cons (s : Int × List LapRecord) (hist : List (Int × List LapRecord))
    (d : String) : rawLapTimes (s :: hist) d = driverSeasonTimes s.2 d ++ rawLapTimes hist d := by
  simp [rawLapTimes]

lemma weightedLapTimes_cons (s : Int × List LapRecord) (hist : List (Int × List LapRecord))
    (d : String) :
    weightedLapTimes (s :: hist) d =
      (driverSeasonTimes s.2 d).map (fun t => t * year_weights s.1) ++ weightedLapTimes hist d := by
  simp [weightedLapTimes]

/-- Characterization of the season fold: starting from any dict state, the
entry of a driver after processing a list of seasons is the initial entry
when the driver contributed no valid lap, and otherwise accumulates the
running minimum, the weighted samples and the contributing seasons. -/
lemma foldl_seasonStep_spec (hist : List (Int × List LapRecord)) :
    ∀ (st : String → Option DriverPerf) (d : String),
      hist.foldl seasonStep st d =
        if rawLapTimes hist d = [] then st d
        else
          some { best_lap := some (minInf ((st d).getD perfInit).best_lap
                   (listMin (rawLapTimes hist d))),
                 weighted_lap_times := ((st d).getD perfInit).weighted_lap_times ++
                   weightedLapTimes hist d,
                 years_raced := ((st d).getD perfInit).years_raced ++ seasonsRaced hist d } := by
  induction hist with
  | nil => intro st d; simp [rawLapTimes]
  | cons s hist ih =>
    intro st d
    show (hist.foldl seasonStep (seasonStep st s)) d = _
    rw [ih (seasonStep st s) d]
    by_cases hts : driverSeasonTimes s.2 d = []
    · have hstep : seasonStep st s d = st d := by
        simp [seasonStep, hts]
      have hraw : rawLapTimes (s :: hist) d = rawLapTimes hist d := by
        rw [rawLapTimes_cons, hts, List.nil_append]
      have hw : weightedLapTimes (s :: hist) d = weightedLapTimes hist d := by
        rw [weightedLapTimes_cons, hts]
        simp
      have hsr : seasonsRaced (s :: hist) d = seasonsRaced hist d := by
        simp [seasonsRaced, hts]
      rw [hraw, hw, hsr, hstep]
    · have hstep : seasonStep st s d =
          some { best_lap := some (minInf ((st d).getD perfInit).best_lap
                   (listMin (driverSeasonTimes s.2 d))),
                 weighted_lap_times := ((st d).getD perfInit).weighted_lap_times ++
                   (driverSeasonTimes s.2 d).map (fun t => t * year_weights s.1),
                 years_raced := ((st d).getD perfInit).years_raced ++ [s.1] } := by
        simp [seasonStep, hts]
      have hraw : rawLapTimes (s :: hist) d = driverSeasonTimes s.2 d ++ rawLapTimes hist d :=
        rawLapTimes_cons s hist d
      have hsr : seasonsRaced (s :: hist) d = s.1 :: seasonsRaced hist d := by
        simp [seasonsRaced, hts]
      by_cases hrest : rawLapTimes hist d = []
      · have hne : rawLapTimes (s :: hist) d ≠ [] := by
          rw [hraw, hrest, List.append_nil]
          exact hts
        have hrest2 : hist.flatMap (fun s => driverSeasonTimes s.2 d) = [] := hrest
        have hall : ∀ a ∈ hist, driverSeasonTimes a.2 d = [] :=
          fun a ha => List.flatMap_eq_nil_iff.mp hrest2 a ha
        have hsr0 : seasonsRaced hist d = [] := by
          simp only [seasonsRaced, List.map_eq_nil_iff, List.filter_eq_nil_iff]
          intro a ha
          simp [hall a ha]
        have hw0 : weightedLapTimes hist d = [] := by
          simp only [weightedLapTimes, List.flatMap_eq_nil_iff]
          intro a ha
          rw [hall a ha]
          rfl
        rw [if_pos hrest, if_neg hne, hstep, hraw, hrest, weightedLapTimes_cons, hsr, hsr0, hw0]
        simp
      · have hne : rawLapTimes (s :: hist) d ≠ [] := by
          rw [hraw]
          intro hcon
          exact hts (List.append_eq_nil.mp hcon).1
        rw [if_neg hrest, if_neg hne, hstep, hraw, weightedLapTimes_cons, hsr]
        simp only [Option.getD_some]
        have hmin : minInf (some (minInf ((st d).getD perfInit).best_lap
              (listMin (driverSeasonTimes s.2 d)))) (listMin (rawLapTimes hist d)) =
            minInf ((st d).getD perfInit).best_lap
              (listMin (driverSeasonTimes s.2 d ++ rawLapTimes hist d)) := by
          show min (minInf _ _) _ = _
          rw [minInf_min, listMin_append hts hrest]
        simp [hmin, List.append_assoc]

/-- Unpacking of a successful profile lookup in terms of the driver's raw
and weighted sample lists. -/
lemma build_profile_eq (hist : List (Int × List LapRecord)) (d : String) (P : ProfileStats)
    (h : build_perfect_lap_profile hist d = some P) :
    rawLapTimes hist d ≠ [] ∧
    P.best_lap = listMin (rawLapTimes hist d) ∧
    P.average_lap = listMean (weightedLapTimes hist d) ∧
    P.variance = listPopVar (weightedLapTimes hist d) ∧
    P.median_lap = listMedian (weightedLapTimes hist d) ∧
    P.races_count = (seasonsRaced hist d).length := by
  have hspec := foldl_seasonStep_spec hist (fun _ => none) d
  by_cases hraw : rawLapTimes hist d = []
  · rw [if_pos hraw] at hspec
    have : build_perfect_lap_profile hist d = none := by
      simp only [build_perfect_lap_profile, driverPerformances]
      rw [hspec]
      rfl
    rw [this] at h
    exact absurd h (by simp)
  · rw [if_neg hraw] at hspec
    have hbuild : build_perfect_lap_profile hist d =
        some { best_lap := listMin (rawLapTimes hist d),
               average_lap := listMean (weightedLapTimes hist d),
               variance := listPopVar (weightedLapTimes hist d),
               median_lap := listMedian (weightedLapTimes hist d),
               races_count := (seasonsRaced hist d).length } := by
      simp only [build_perfect_lap_profile, driverPerformances]
      rw [hspec]
      simp [perfInit, minInf]
    rw [hbuild] at h
    have hP := Option.some.inj h
    refine ⟨hraw, ?_, ?_, ?_, ?_, ?_⟩ <;> rw [← hP]

/-- C2: for every competitor emitted by `build_perfect_lap_profile`,
`best_lap` is the unweighted minimum of that competitor's non-null raw lap
durations across all processed seasons (hence a lower bound on every
contributing duration), `average_lap` is the arithmetic mean,
`std_dev` the population standard deviation, and `median_lap` the median
of the samples `duration * season_weight`, where the season weight comes
from the fixed `year_weights` table and defaults to `1.0` for seasons
absent from it. -/
theorem build_profile_statistics (hist : List (Int × List LapRecord)) (d : String)
    (P : ProfileStats) (h : build_perfect_lap_profile hist d = some P) :
    P.best_lap = listMin (rawLapTimes hist d) ∧
    P.best_lap ∈ rawLapTimes hist d ∧
    (∀ t ∈ rawLapTimes hist d, P.best_lap ≤ t) ∧
    P.average_lap = listMean (weightedLapTimes hist d) ∧
    P.std_dev = popStd (weightedLapTimes hist d) ∧
    P.median_lap = listMedian (weightedLapTimes hist d) ∧
    (∀ y : Int, y ≠ 2023 → y ≠ 2024 → y ≠ 2025 → year_weights y = 1) := by
  obtain ⟨hraw, hbest, havg, hvar, hmed, _⟩ := build_profile_eq hist d P h
  refine ⟨hbest, ?_, ?_, havg, ?_, hmed, ?_⟩
  · rw [hbest]
    exact listMin_mem hraw
  · intro t ht
    rw [hbest]
    exact listMin_le t ht
  · show Real.sqrt P.variance = Real.sqrt (listPopVar (weightedLapTimes hist d))
    rw [hvar]
  · intro y h23 h24 h25
    simp [year_weights, h23, h24, h25]

/-- Witness for C2 at a concrete one-season history: driver "1" raced 2024
(weight 2) with raw laps 1 and 3, so the profile has best 1, weighted
samples [2, 6], mean 4, variance 4 and median 4. -/
theorem build_profile_statistics_witness :
    build_perfect_lap_profile
        [(2024, [⟨"1", 1, some 1, false⟩, ⟨"1", 2, some 3, false⟩])] "1" =
      some { best_lap := 1, average_lap := 4, variance := 4, median_lap := 4,
             races_count := 1 } ∧
    (1 : ℚ) = listMin (rawLapTimes
        [(2024, [⟨"1", 1, some 1, false⟩, ⟨"1", 2, some 3, false⟩])] "1") := by
  have h : build_perfect_lap_profile
      [(2024, [⟨"1", 1, some 1, false⟩, ⟨"1", 2, some 3, false⟩])] "1" =
      some { best_lap := 1, average_lap := 4, variance := 4, median_lap := 4,
             races_count := 1 } := by
    norm_num [build_perfect_lap_profile, driverPerformances, seasonStep, driverSeasonTimes,
      seasonValid, listMin, minInf, listMean, listPopVar, listMedian, perfInit, year_weights,
      List.insertionSort, List.orderedInsert]
  exact ⟨h, (build_profile_statistics _ "1" _ h).1⟩

/-- Removal of the null-duration laps of every season, `none` signalling a
NaN `lap_duration` cell. -/
def dropNullLaps (hist : List (Int × List LapRecord)) : List (Int × List LapRecord) :=
  hist.map (fun s => (s.1, s.2.filter (fun l => l.lap_duration.isSome)))

lemma driverSeasonTimes_filter_isSome (laps : List LapRecord) (d : String) :
    driverSeasonTimes (laps.filter (fun l => l.lap_duration.isSome)) d =
      driverSeasonTimes laps d := by
  simp [driverSeasonTimes, seasonValid, List.filter_filter]

lemma seasonStep_dropNull (st : String → Option DriverPerf) (s : Int × List LapRecord) :
    seasonStep st (s.1, s.2.filter (fun l => l.lap_duration.isSome)) = seasonStep st s := by
  funext d
  simp only [seasonStep, driverSeasonTimes_filter_isSome]

lemma build_dropNullLaps (hist : List (Int × List LapRecord)) :
    build_perfect_lap_profile (dropNullLaps hist) = build_perfect_lap_profile hist := by
  have : driverPerformances (dropNullLaps hist) = driverPerformances hist := by
    simp only [driverPerformances, dropNullLaps, List.foldl_map]
    congr 1
    funext st s
    exact seasonStep_dropNull st s
  unfold build_perfect_lap_profile
  rw [this]

/-- C9: null lap durations are excluded from all statistics (removing them
from the input changes nothing, so they are never treated as a zero
duration), and a competitor is absent from the result exactly when they
have zero valid laps across all processed seasons. -/
theorem null_laps_excluded (hist : List (Int × List LapRecord)) (d : String) :
    build_perfect_lap_profile (dropNullLaps hist) = build_perfect_lap_profile hist ∧
    (build_perfect_lap_profile hist d = none ↔ rawLapTimes hist d = []) := by
  refine ⟨build_dropNullLaps hist, ?_⟩
  have hspec := foldl_seasonStep_spec hist (fun _ => none) d
  by_cases hraw : rawLapTimes hist d = []
  · rw [if_pos hraw] at hspec
    simp only [build_perfect_lap_profile, driverPerformances]
    rw [hspec]
    simp [hraw]
  · rw [if_neg hraw] at hspec
    simp only [build_perfect_lap_profile, driverPerformances]
    rw [hspec]
    simp [hraw]

/-- Rewriting of every lap's `is_pit_out_lap` flag to `False`, the erasure
through which the profile builder factors. -/
def stripPitFlags (hist : List (Int × List LapRecord)) : List (Int × List LapRecord) :=
  hist.map (fun s => (s.1, s.2.map (fun l => { l with is_pit_out_lap := false })))

lemma driverSeasonTimes_stripPit (laps : List LapRecord) (d : String) :
    driverSeasonTimes (laps.map (fun l => { l with is_pit_out_lap := false })) d =
      driverSeasonTimes laps d := by
  simp only [driverSeasonTimes, seasonValid, List.filter_map, List.map_map]
  rfl

lemma build_stripPitFlags (hist : List (Int × List LapRecord)) :
    build_perfect_lap_profile (stripPitFlags hist) = build_perfect_lap_profile hist := by
  have : driverPerformances (stripPitFlags hist) = driverPerformances hist := by
    simp only [driverPerformances, stripPitFlags, List.foldl_map]
    congr 1
    funext st s
    funext d
    simp only [seasonStep, driverSeasonTimes_stripPit]
  unfold build_perfect_lap_profile
  rw [this]

/-- C10: the profile builder never reads `is_pit_out_lap` — two historical
inputs that agree once every pit-out flag is erased produce identical
profiles, so pit out-laps with a non-null duration enter every statistic
on the same footing as other laps. -/
theorem profile_ignores_pit_flag (h1 h2 : List (Int × List LapRecord))
    (h : stripPitFlags h1 = stripPitFlags h2) :
    build_perfect_lap_profile h1 = build_perfect_lap_profile h2 := by
  rw [← build_stripPitFlags h1, ← build_stripPitFlags h2, h]

/-- Witness for C10: two one-lap histories differing only in the pit-out
flag of their single lap yield the same profiles. -/
theorem profile_ignores_pit_flag_witness :
    stripPitFlags [(2024, [⟨"1", 1, some 1, true⟩])] =
      stripPitFlags [(2024, [⟨"1", 1, some 1, false⟩])] ∧
    build_perfect_lap_profile [(2024, [⟨"1", 1, some 1, true⟩])] =
      build_perfect_lap_profile [(2024, [⟨"1", 1, some 1, false⟩])] := by
  have h : stripPitFlags [(2024, [⟨"1", 1, some 1, true⟩])] =
      stripPitFlags [(2024, [⟨"1", 1, some 1, false⟩])] := by
    simp [stripPitFlags]
  exact ⟨h, profile_ignores_pit_flag _ _ h⟩

lemma driverRace_length (d : String) (p : SimProfile) (num_laps : Nat) (z : Nat → ℚ) :
    (driverRace d p num_laps z).length = num_laps := by
  simp [driverRace]

lemma driverRace_getElem (d : String) (p : SimProfile) (num_laps : Nat) (z : Nat → ℚ)
    (j : Nat) (hj : j < num_laps) :
    (driverRace d p num_laps z)[j]? =
      some { driver_number := d, lap_number := j + 1,
             lap_duration := simLapTime p.best_lap p.std_dev (j + 1) num_laps (z j) } := by
  simp only [driverRace, List.getElem?_map, List.getElem?_range hj]
  rfl

lemma generate_simulated_race_getElem (profiles : List (String × SimProfile)) :
    ∀ (num_laps : Nat) (z : Nat → ℚ) (i j : Nat) (d : String) (p : SimProfile),
      profiles[i]? = some (d, p) → j < num_laps →
      (generate_simulated_race profiles num_laps z)[i * num_laps + j]? =
        some { driver_number := d, lap_number := j + 1,
               lap_duration :=
                 simLapTime p.best_lap p.std_dev (j + 1) num_laps (z (i * num_laps + j)) } := by
  induction profiles with
  | nil =>
    intro n z i j d p hp hj
    simp at hp
  | cons hd rest ih =>
    obtain ⟨d0, p0⟩ := hd
    intro n z i j d p hp hj
    cases i with
    | zero =>
      have hp2 : (d0, p0) = (d, p) := by simpa using hp
      obtain ⟨h1, h2⟩ := Prod.mk.injEq .. ▸ hp2
      show (driverRace d0 p0 n z ++ _)[0 * n + j]? = _
      rw [Nat.zero_mul, Nat.zero_add,
        List.getElem?_append_left (by rw [driverRace_length]; exact hj),
        driverRace_getElem d0 p0 n z j hj, h1, h2]
    | succ i2 =>
      have hp2 : rest[i2]? = some (d, p) := by simpa using hp
      have hidx : (i2 + 1) * n + j = i2 * n + j + n := by
        rw [Nat.succ_mul]
        omega
      show (driverRace d0 p0 n z ++
          generate_simulated_race rest n (fun k => z (n + k)))[(i2 + 1) * n + j]? = _
      rw [List.getElem?_append_right (by rw [driverRace_length]; omega), driverRace_length,
        show (i2 + 1) * n + j - n = i2 * n + j by omega,
        ih n (fun k => z (n + k)) i2 j d p hp2 hj]
      have hz : n + (i2 * n + j) = (i2 + 1) * n + j := by
        rw [Nat.succ_mul]
        omega
      rw [hz]

lemma generate_simulated_race_mem (profiles : List (String × SimProfile)) :
    ∀ (num_laps : Nat) (z : Nat → ℚ) (sl : SimLap),
      sl ∈ generate_simulated_race profiles num_laps z →
      ∃ pr ∈ profiles, sl.driver_number = pr.1 ∧ pr.2.best_lap ≤ sl.lap_duration := by
  induction profiles with
  | nil =>
    intro n z sl hsl
    simp [generate_simulated_race] at hsl
  | cons hd rest ih =>
    obtain ⟨d0, p0⟩ := hd
    intro n z sl hsl
    rcases List.mem_append.mp hsl with h | h
    · simp only [driverRace, List.mem_map, List.mem_range] at h
      obtain ⟨j, _, hj2⟩ := h
      refine ⟨(d0, p0), List.mem_cons_self _ _, ?_, ?_⟩
      · rw [← hj2]
      · rw [← hj2]
        exact le_max_right _ _
    · obtain ⟨pr, hpr, hd, hle⟩ := ih n (fun k => z (n + k)) sl h
      exact ⟨pr, List.mem_cons_of_mem _ hpr, hd, hle⟩

/-- C1: for the i-th profile and every lap L in 1..num_laps, the simulated
race contains, at the corresponding position, a lap whose duration is
max(best_lap * m + e, best_lap) with m = 1.02 when L = 1, else 1.01 when
L > num_laps - 5, else 1.0, and e the corresponding normal draw scaled by
std_dev * 0.5; consequently every simulated lap duration is at least its
competitor's best_lap. -/
theorem simulated_lap_formula (profiles : List (String × SimProfile)) (num_laps : Nat)
    (z : Nat → ℚ) (i L : Nat) (hi : i < profiles.length) (hL1 : 1 ≤ L) (hL2 : L ≤ num_laps) :
    (generate_simulated_race profiles num_laps z)[i * num_laps + (L - 1)]? =
      some { driver_number := (profiles.get ⟨i, hi⟩).1,
             lap_number := L,
             lap_duration :=
               max ((profiles.get ⟨i, hi⟩).2.best_lap *
                      (if L = 1 then 102 / 100
                       else if (num_laps : Int) - 5 < (L : Int) then 101 / 100 else 1) +
                    (profiles.get ⟨i, hi⟩).2.std_dev * (1 / 2) * z (i * num_laps + (L - 1)))
                 ((profiles.get ⟨i, hi⟩).2.best_lap) } ∧
    (∀ sl ∈ generate_simulated_race profiles num_laps z,
       ∃ pr ∈ profiles, sl.driver_number = pr.1 ∧ pr.2.best_lap ≤ sl.lap_duration) := by
  constructor
  · have hp : profiles[i]? = some ((profiles.get ⟨i, hi⟩).1, (profiles.get ⟨i, hi⟩).2) := by
      rw [List.getElem?_eq_getElem hi]
      rfl
    have h1 := generate_simulated_race_getElem profiles num_laps z i (L - 1)
      (profiles.get ⟨i, hi⟩).1 (profiles.get ⟨i, hi⟩).2 hp (by omega)
    rw [show L - 1 + 1 = L by omega] at h1
    rw [h1]
    simp only [simLapTime, lapMultiplier]
  · exact generate_simulated_race_mem profiles num_laps z

/-- Witness for C1: one driver with best 90 and std 1, a 3-lap race and the
constant draw 2; lap 1 sits at index 0 with the 1.02 multiplier and jitter
1 * 0.5 * 2. -/
theorem simulated_lap_formula_witness :
    (generate_simulated_race [("1", ⟨90, 1⟩)] 3 (fun _ => 2))[0]? =
      some { driver_number := "1", lap_number := 1,
             lap_duration := max (90 * (102 / 100) + 1 * (1 / 2) * 2) 90 } := by
  have h := (simulated_lap_formula [("1", ⟨90, 1⟩)] 3 (fun _ => 2) 0 1
    (by norm_num) (by norm_num) (by norm_num)).1
  simpa using h

/-- C5 (amended): in the scenario with one profile (best 90.0, std 1.0) and
num_laps = 3, lap 1 gets multiplier 1.02 (the lap == 1 check wins over the
tail window, which for num_laps = 3 is lap > -2 and so covers every lap),
giving candidate 91.8 plus jitter clamped at 90.0, while laps 2 and 3 fall
in the tail window and get multiplier 1.01. -/
theorem small_race_scenario (z : Nat → ℚ) :
    generate_simulated_race [("1", ⟨90, 1⟩)] 3 z =
      [ { driver_number := "1", lap_number := 1,
          lap_duration := max (90 * (102 / 100) + 1 * (1 / 2) * z 0) 90 },
        { driver_number := "1", lap_number := 2,
          lap_duration := max (90 * (101 / 100) + 1 * (1 / 2) * z 1) 90 },
        { driver_number := "1", lap_number := 3,
          lap_duration := max (90 * (101 / 100) + 1 * (1 / 2) * z 2) 90 } ] ∧
    (∀ sl ∈ generate_simulated_race [("1", ⟨90, 1⟩)] 3 z, 90 ≤ sl.lap_duration) := by
  constructor
  · show driverRace "1" ⟨90, 1⟩ 3 z ++ [] = _
    rw [List.append_nil]
    simp only [driverRace, List.range_succ, List.range_zero, List.map_append, List.map_cons,
      List.map_nil, simLapTime, lapMultiplier]
    norm_num
  · intro sl hsl
    obtain ⟨pr, hpr, _, hle⟩ :=
      generate_simulated_race_mem [("1", ⟨90, 1⟩)] 3 z sl hsl
    have : pr = ("1", (⟨90, 1⟩ : SimProfile)) := by simpa using hpr
    rw [this] at hle
    exact hle

/-- Witness for C5 (amended) at the identically-zero draw stream: all
candidates clear the floor, laps 2 and 3 read 90.9 = 90 * 1.01. -/
theorem small_race_scenario_witness :
    generate_simulated_race [("1", ⟨90, 1⟩)] 3 (fun _ => 0) =
      [ { driver_number := "1", lap_number := 1,
          lap_duration := max (90 * (102 / 100) + 1 * (1 / 2) * 0) 90 },
        { driver_number := "1", lap_number := 2,
          lap_duration := max (90 * (101 / 100) + 1 * (1 / 2) * 0) 90 },
        { driver_number := "1", lap_number := 3,
          lap_duration := max (90 * (101 / 100) + 1 * (1 / 2) * 0) 90 } ] :=
  (small_race_scenario (fun _ => 0)).1

/-- C5 counterexample: the claim predicts multiplier 1.0 on lap 2 of the
3-lap scenario, i.e. duration max(90 * 1.0 + jitter, 90) = 90 at zero
jitter, but the code produces 90.9 there (multiplier 1.01, since
2 > 3 - 5). -/
theorem small_race_scenario_claim_false :
    (generate_simulated_race [("1", ⟨90, 1⟩)] 3 (fun _ => 0))[1]? =
      some { driver_number := "1", lap_number := 2, lap_duration := 909 / 10 } ∧
    (909 / 10 : ℚ) ≠ max (90 * 1 + 1 * (1 / 2) * 0) 90 := by
  constructor
  · rw [(small_race_scenario (fun _ => 0)).1]
    norm_num [max_eq_left]
  · rw [show (90 * 1 + 1 * (1 / 2) * 0 : ℚ) = 90 by norm_num, max_self]
    norm_num

/-- C6 (code divergence): on wholly empty input the profile builder, the
simulator and the podium all return empty results without failing, but the
position ranker does not — `generate_simulated_race` of an empty profile
map is the column-less empty frame, on which `calculate_race_positions`
immediately reads the missing `lap_number` column and raises `KeyError`
(the `none` result) instead of returning an empty sequence. -/
theorem empty_input_behavior :
    (∀ d, build_perfect_lap_profile [] d = none) ∧
    (∀ z, generate_simulated_race [] 56 z = []) ∧
    calculate_race_positions [] = none ∧
    predict_podium [] = [] :=
  ⟨fun _ => rfl, fun _ => rfl, rfl, rfl⟩

/-- C7 (code divergence): the source's `generate_simulated_race` takes no
seed parameter — its randomness comes from the ambient numpy global RNG —
so its output is not a function of the profiles and lap count alone: two
runs over identical inputs that see different ambient draw streams
disagree. -/
theorem generate_depends_on_rng_stream :
    generate_simulated_race [("1", ⟨90, 1⟩)] 1 (fun _ => 0) ≠
      generate_simulated_race [("1", ⟨90, 1⟩)] 1 (fun _ => 1) := by
  have h1 : generate_simulated_race [("1", ⟨90, 1⟩)] 1 (fun _ => 0) =
      [{ driver_number := "1", lap_number := 1,
         lap_duration := max (90 * (102 / 100) + 1 * (1 / 2) * 0) 90 }] := by
    show driverRace "1" ⟨90, 1⟩ 1 (fun _ => 0) ++ [] = _
    rw [List.append_nil]
    simp [driverRace, List.range_succ, simLapTime, lapMultiplier]
  have h2 : generate_simulated_race [("1", ⟨90, 1⟩)] 1 (fun _ => 1) =
      [{ driver_number := "1", lap_number := 1,
         lap_duration := max (90 * (102 / 100) + 1 * (1 / 2) * 1) 90 }] := by
    show driverRace "1" ⟨90, 1⟩ 1 (fun _ => 1) ++ [] = _
    rw [List.append_nil]
    simp [driverRace, List.range_succ, simLapTime, lapMultiplier]
  intro hcon
  rw [h1, h2] at hcon
  have := (SimLap.mk.injEq .. ▸ List.cons.injEq .. ▸ hcon).1.2.2
  rw [max_eq_left (by norm_num), max_eq_left (by norm_num)] at this
  norm_num at this

/-- C8 (code divergence): a non-positive lap count is not rejected — the
inner `range(1, num_laps + 1)` loop is simply empty, so the function
silently returns an empty sequence for every profile map and draw stream
instead of raising a descriptive error. -/
theorem generate_zero_laps_silently_empty (profiles : List (String × SimProfile))
    (z : Nat → ℚ) :
    generate_simulated_race profiles 0 z = [] := by
  induction profiles generalizing z with
  | nil => rfl
  | cons hd rest ih =>
    obtain ⟨d0, p0⟩ := hd
    show driverRace d0 p0 0 z ++ generate_simulated_race rest 0 (fun k => z (0 + k)) = []
    rw [ih]
    rfl

lemma uniqueLaps_foldl_mem (df : List SimLap) :
    ∀ (acc : List Nat) (x : Nat),
      x ∈ df.foldl (fun acc l => if l.lap_number ∈ acc then acc else acc ++ [l.lap_number]) acc ↔
        x ∈ acc ∨ x ∈ df.map (fun l => l.lap_number) := by
  induction df with
  | nil => intro acc x; simp
  | cons l df ih =>
    intro acc x
    simp only [List.foldl_cons]
    rw [ih]
    by_cases h : l.lap_number ∈ acc
    · simp only [if_pos h, List.map_cons, List.mem_cons]
      constructor
      · rintro (h1 | h1)
        · exact Or.inl h1
        · exact Or.inr (Or.inr h1)
      · rintro (h1 | h1 | h1)
        · exact Or.inl h1
        · exact Or.inl (h1 ▸ h)
        · exact Or.inr h1
    · simp only [if_neg h, List.mem_append, List.mem_singleton, List.map_cons, List.mem_cons]
      tauto

lemma uniqueLaps_mem (df : List SimLap) (x : Nat) :
    x ∈ uniqueLaps df ↔ x ∈ df.map (fun l => l.lap_number) := by
  show x ∈ df.foldl _ [] ↔ _
  rw [uniqueLaps_foldl_mem df [] x]
  simp

lemma uniqueLaps_foldl_nodup (df : List SimLap) :
    ∀ acc : List Nat, acc.Nodup →
      (df.foldl (fun acc l => if l.lap_number ∈ acc then acc else acc ++ [l.lap_number])
        acc).Nodup := by
  induction df with
  | nil => intro acc h; exact h
  | cons l df ih =>
    intro acc h
    simp only [List.foldl_cons]
    apply ih
    by_cases hm : l.lap_number ∈ acc
    · rw [if_pos hm]; exact h
    · rw [if_neg hm]
      exact ((List.perm_append_singleton _ _).nodup_iff).mpr (List.nodup_cons.mpr ⟨hm, h⟩)

lemma uniqueLaps_nodup (df : List SimLap) : (uniqueLaps df).Nodup :=
  uniqueLaps_foldl_nodup df [] List.nodup_nil

lemma withPositions_map_position (lap : Nat) (xs : List SimLap) :
    ∀ p : Nat, (withPositions lap xs p).map (fun e => e.position) = List.range' p xs.length := by
  induction xs with
  | nil => intro p; rfl
  | cons r xs ih =>
    intro p
    show (_ :: (withPositions lap xs (p + 1)).map (fun e => e.position)) = _
    rw [ih (p + 1), List.length_cons, List.range'_succ p xs.length 1]

lemma withPositions_map_pair (lap : Nat) (xs : List SimLap) :
    ∀ p : Nat, (withPositions lap xs p).map (fun e => (e.driver_number, e.lap_time)) =
      xs.map (fun r => (r.driver_number, r.lap_duration)) := by
  induction xs with
  | nil => intro p; rfl
  | cons r xs ih =>
    intro p
    show (_ :: (withPositions lap xs (p + 1)).map _) = _
    rw [ih (p + 1)]
    rfl

lemma withPositions_map_time (lap : Nat) (xs : List SimLap) :
    ∀ p : Nat, (withPositions lap xs p).map (fun e => e.lap_time) =
      xs.map (fun r => r.lap_duration) := by
  induction xs with
  | nil => intro p; rfl
  | cons r xs ih =>
    intro p
    show (_ :: (withPositions lap xs (p + 1)).map _) = _
    rw [ih (p + 1)]
    rfl

lemma withPositions_lap_number (lap : Nat) (xs : List SimLap) :
    ∀ (p : Nat) (e : PositionEntry), e ∈ withPositions lap xs p → e.lap_number = lap := by
  induction xs with
  | nil => intro p e he; exact absurd he (List.not_mem_nil e)
  | cons r xs ih =>
    intro p e he
    rcases List.mem_cons.mp he with h | h
    · rw [h]
    · exact ih (p + 1) e h

lemma lapPositions_lap_number (df : List SimLap) (lap : Nat) (e : PositionEntry)
    (he : e ∈ lapPositions df lap) : e.lap_number = lap :=
  withPositions_lap_number lap _ 1 e he

lemma flatMap_lapPositions_filter (df : List SimLap) (L : Nat) :
    ∀ laps : List Nat, laps.Nodup →
      (laps.flatMap (lapPositions df)).filter (fun e => decide (e.lap_number = L)) =
        if L ∈ laps then lapPositions df L else [] := by
  intro laps
  induction laps with
  | nil => intro h; simp
  | cons l laps ih =>
    intro h
    have hnd := List.nodup_cons.mp h
    rw [List.flatMap_cons, List.filter_append]
    by_cases hl : l = L
    · subst hl
      have h1 : (lapPositions df l).filter (fun e => decide (e.lap_number = l)) =
          lapPositions df l :=
        List.filter_eq_self.mpr (fun e he => by
          simp [lapPositions_lap_number df l e he])
      have h2 : (laps.flatMap (lapPositions df)).filter (fun e => decide (e.lap_number = l)) =
          [] := by
        rw [ih hnd.2, if_neg hnd.1]
      rw [h1, h2, List.append_nil, if_pos (List.mem_cons_self ..)]
    · have h1 : (lapPositions df l).filter (fun e => decide (e.lap_number = L)) = [] :=
        List.filter_eq_nil_iff.mpr (fun e he => by
          simp [lapPositions_lap_number df l e he, hl])
      rw [h1, List.nil_append, ih hnd.2]
      by_cases hL : L ∈ laps
      · rw [if_pos hL, if_pos (List.mem_cons_of_mem _ hL)]
      · rw [if_neg hL, if_neg (by
          intro hc
          rcases List.mem_cons.mp hc with hc2 | hc2
          · exact hl hc2.symm
          · exact hL hc2)]

lemma rank_entries_eq (df : List SimLap) (L : Nat) :
    (rankPositionsRows df).filter (fun e => decide (e.lap_number = L)) =
      if L ∈ df.map (fun l => l.lap_number) then lapPositions df L else [] := by
  show ((uniqueLaps df).flatMap (lapPositions df)).filter _ = _
  rw [flatMap_lapPositions_filter df L (uniqueLaps df) (uniqueLaps_nodup df)]
  by_cases h : L ∈ uniqueLaps df
  · rw [if_pos h, if_pos ((uniqueLaps_mem df L).mp h)]
  · rw [if_neg h, if_neg (fun hc => h ((uniqueLaps_mem df L).mpr hc))]

/-- C3 (order-insensitive part): when `calculate_race_positions` succeeds,
each lap group's assigned positions are exactly the contiguous run 1..K in
emission order (K the group's competitor count), the emitted lap times are
ascending, the emitted (driver, time) pairs are a permutation of the
group, and the position-1 entry carries the group's minimum duration.
The claim's remaining conjunct — ties broken by original input order — is
not guaranteed by the source, whose `sort_values` default quicksort leaves
the order of equal durations implementation-defined. -/
theorem rank_positions_ok_per_lap (df : List SimLap) (es : List PositionEntry) (lap : Nat)
    (h : calculate_race_positions df = some es) :
    (es.filter (fun e => decide (e.lap_number = lap))).map
        (fun e => e.position) = List.range' 1 (lapGroup df lap).length ∧
    List.Sorted (· ≤ ·)
      ((es.filter (fun e => decide (e.lap_number = lap))).map (fun e => e.lap_time)) ∧
    ((es.filter (fun e => decide (e.lap_number = lap))).map
        (fun e => (e.driver_number, e.lap_time))).Perm
      ((lapGroup df lap).map (fun r => (r.driver_number, r.lap_duration))) ∧
    (lapGroup df lap ≠ [] →
      ∃ e ∈ es.filter (fun e => decide (e.lap_number = lap)),
        e.position = 1 ∧ ∀ r ∈ lapGroup df lap, e.lap_time ≤ r.lap_duration) := by
  have hes : es = rankPositionsRows df := by
    unfold calculate_race_positions at h
    by_cases hdf : df.isEmpty
    · rw [if_pos hdf] at h
      exact absurd h (by simp)
    · rw [if_neg hdf] at h
      exact (Option.some.inj h).symm
  subst hes
  rw [rank_entries_eq df lap]
  by_cases h2 : lap ∈ df.map (fun l => l.lap_number)
  · rw [if_pos h2]
    refine ⟨?_, ?_, ?_, ?_⟩
    · show (withPositions lap (List.insertionSort byTime (lapGroup df lap)) 1).map _ = _
      rw [withPositions_map_position, List.length_insertionSort]
    · show List.Sorted (· ≤ ·)
        ((withPositions lap (List.insertionSort byTime (lapGroup df lap)) 1).map _)
      rw [withPositions_map_time]
      exact List.pairwise_map.mpr (List.sorted_insertionSort byTime _)
    · show ((withPositions lap (List.insertionSort byTime (lapGroup df lap)) 1).map _).Perm _
      rw [withPositions_map_pair]
      exact (List.perm_insertionSort byTime _).map _
    · intro hne
      have hex : ∃ s0 rest, List.insertionSort byTime (lapGroup df lap) = s0 :: rest := by
        cases hI : List.insertionSort byTime (lapGroup df lap) with
        | nil =>
          exfalso
          have hp := List.perm_insertionSort byTime (lapGroup df lap)
          rw [hI] at hp
          have := hp.length_eq
          simp only [List.length_nil] at this
          exact hne (List.eq_nil_of_length_eq_zero this.symm)
        | cons s0 rest => exact ⟨s0, rest, rfl⟩
      obtain ⟨s0, rest, hI⟩ := hex
      refine ⟨{ lap_number := lap, driver_number := s0.driver_number, position := 1,
                lap_time := s0.lap_duration }, ?_, rfl, ?_⟩
      · show _ ∈ withPositions lap (List.insertionSort byTime (lapGroup df lap)) 1
        rw [hI]
        exact List.mem_cons_self _ _
      · intro r hr
        have hrs : r ∈ s0 :: rest := by
          rw [← hI]
          exact ((List.perm_insertionSort byTime (lapGroup df lap)).mem_iff).mpr hr
        have hsorted : List.Sorted byTime (s0 :: rest) := by
          rw [← hI]
          exact List.sorted_insertionSort byTime _
        rcases List.mem_cons.mp hrs with h3 | h3
        · show s0.lap_duration ≤ r.lap_duration
          rw [h3]
        · exact List.rel_of_sorted_cons hsorted r h3
  · rw [if_neg h2]
    have hg : lapGroup df lap = [] := by
      rw [lapGroup, List.filter_eq_nil_iff]
      intro r hr
      simp only [decide_eq_true_eq]
      intro hc
      exact h2 (hc ▸ List.mem_map_of_mem _ hr)
    rw [hg]
    simp

/-- Witness for C3 at a concrete two-driver lap: the ranking succeeds,
driver "2" (94s) beats driver "1" (95s), and position 1 belongs to the
minimum duration 94. -/
theorem rank_positions_ok_per_lap_witness :
    calculate_race_positions [⟨"1", 1, 95⟩, ⟨"2", 1, 94⟩] =
      some [⟨1, "2", 1, 94⟩, ⟨1, "1", 2, 95⟩] ∧
    lapGroup [⟨"1", 1, 95⟩, ⟨"2", 1, 94⟩] 1 ≠ [] ∧
    (∃ e ∈ ([⟨1, "2", 1, 94⟩, ⟨1, "1", 2, 95⟩] : List PositionEntry).filter
        (fun e => decide (e.lap_number = 1)),
      e.position = 1 ∧
        ∀ r ∈ lapGroup [⟨"1", 1, 95⟩, ⟨"2", 1, 94⟩] 1, e.lap_time ≤ r.lap_duration) := by
  have h : calculate_race_positions [⟨"1", 1, 95⟩, ⟨"2", 1, 94⟩] =
      some [⟨1, "2", 1, 94⟩, ⟨1, "1", 2, 95⟩] := by
    norm_num [calculate_race_positions, rankPositionsRows, uniqueLaps, lapPositions, lapGroup,
      withPositions, byTime, List.insertionSort, List.orderedInsert]
  have hne : lapGroup [⟨"1", 1, 95⟩, ⟨"2", 1, 94⟩] 1 ≠ [] := by
    simp [lapGroup]
  exact ⟨h, hne, (rank_positions_ok_per_lap _ _ 1 h).2.2.2 hne⟩

lemma withPodium_length (df : List SimLap) (xs : List SimLap) :
    ∀ p : Nat, (withPodium df xs p).length = xs.length := by
  induction xs with
  | nil => intro p; rfl
  | cons r xs ih =>
    intro p
    show (withPodium df xs (p + 1)).length + 1 = xs.length + 1
    rw [ih (p + 1)]

lemma withPodium_map_final (df : List SimLap) (xs : List SimLap) :
    ∀ p : Nat, (withPodium df xs p).map (fun e => e.final_lap_time) =
      xs.map (fun r => r.lap_duration) := by
  induction xs with
  | nil => intro p; rfl
  | cons r xs ih =>
    intro p
    show (_ :: (withPodium df xs (p + 1)).map _) = _
    rw [ih (p + 1)]
    rfl

lemma withPodium_mem (df : List SimLap) (xs : List SimLap) :
    ∀ (p : Nat) (e : PodiumEntry), e ∈ withPodium df xs p →
      ∃ r ∈ xs, e.driver_number = r.driver_number ∧ e.final_lap_time = r.lap_duration ∧
        e.best_lap = listMin (driverTimes df r.driver_number) := by
  induction xs with
  | nil => intro p e he; exact absurd he (List.not_mem_nil e)
  | cons r xs ih =>
    intro p e he
    rcases List.mem_cons.mp he with h | h
    · exact ⟨r, List.mem_cons_self _ _, by rw [h], by rw [h], by rw [h]⟩
    · obtain ⟨r2, hr2, h1, h2, h3⟩ := ih (p + 1) e h
      exact ⟨r2, List.mem_cons_of_mem _ hr2, h1, h2, h3⟩

/-- C4: the podium is built from the maximum lap number present, holds at
most 3 entries sorted ascending by that final lap's duration, is empty
exactly on empty input, and each entry's overall best lap is the minimum
duration over that competitor's whole simulated race. -/
theorem podium_spec (df : List SimLap) :
    (predict_podium df).length = min 3 (finalLapGroup df).length ∧
    (predict_podium df = [] ↔ df = []) ∧
    List.Sorted (· ≤ ·) ((predict_podium df).map (fun e => e.final_lap_time)) ∧
    (∀ l ∈ df, l.lap_number ≤ finalLap df) ∧
    (df ≠ [] → finalLap df ∈ df.map (fun l => l.lap_number)) ∧
    (∀ e ∈ predict_podium df,
       (∃ r ∈ finalLapGroup df, e.driver_number = r.driver_number ∧
          e.final_lap_time = r.lap_duration) ∧
       e.best_lap ∈ driverTimes df e.driver_number ∧
       (∀ u ∈ driverTimes df e.driver_number, e.best_lap ≤ u)) := by
  by_cases hdf : df = []
  · subst hdf
    refine ⟨rfl, by simp [predict_podium], ?_, by simp, by simp, by simp [predict_podium]⟩
    show List.Sorted (· ≤ ·) (([] : List PodiumEntry).map _)
    simp
  · have hpp : predict_podium df =
        withPodium df ((List.insertionSort byTime (finalLapGroup df)).take 3) 1 := by
      show (if df.isEmpty then [] else _) = _
      rw [if_neg (by simpa [List.isEmpty_iff] using hdf)]
    have hfin : finalLap df ∈ df.map (fun l => l.lap_number) := by
      apply listMaxNat_mem
      simp [hdf]
    have hgne : finalLapGroup df ≠ [] := by
      obtain ⟨l, hl, hleq⟩ := List.mem_map.mp hfin
      intro hc
      have hmem : l ∈ finalLapGroup df := List.mem_filter.mpr ⟨hl, by simp [hleq]⟩
      rw [hc] at hmem
      exact absurd hmem (List.not_mem_nil l)
    have hlen : (predict_podium df).length = min 3 (finalLapGroup df).length := by
      rw [hpp, withPodium_length, List.length_take, List.length_insertionSort]
    refine ⟨hlen, ?_, ?_, ?_, fun _ => hfin, ?_⟩
    · constructor
      · intro hc
        exfalso
        have h0 : (predict_podium df).length = 0 := by rw [hc]; rfl
        rw [hlen] at h0
        have hpos := List.length_pos_of_ne_nil hgne
        omega
      · intro hc
        exact absurd hc hdf
    · rw [hpp, withPodium_map_final]
      have hs : List.Pairwise byTime ((List.insertionSort byTime (finalLapGroup df)).take 3) :=
        List.Pairwise.sublist (List.take_sublist 3 _)
          (List.sorted_insertionSort byTime (finalLapGroup df))
      exact List.pairwise_map.mpr hs
    · intro l hl
      exact le_listMaxNat _ (List.mem_map_of_mem _ hl)
    · intro e he
      rw [hpp] at he
      obtain ⟨r, hr, h1, h2, h3⟩ := withPodium_mem df _ 1 e he
      have hrs : r ∈ List.insertionSort byTime (finalLapGroup df) :=
        List.mem_of_mem_take hr
      have hrg : r ∈ finalLapGroup df :=
        ((List.perm_insertionSort byTime (finalLapGroup df)).mem_iff).mp hrs
      have hrdf : r ∈ df := List.mem_of_mem_filter hrg
      have hdur : r.lap_duration ∈ driverTimes df r.driver_number :=
        List.mem_map.mpr ⟨r, List.mem_filter.mpr ⟨hrdf, by simp⟩, rfl⟩
      have hne2 : driverTimes df r.driver_number ≠ [] :=
        fun hc => absurd (hc ▸ hdur) (List.not_mem_nil _)
      refine ⟨⟨r, hrg, h1, h2⟩, ?_, ?_⟩
      · rw [h3, h1]
        exact listMin_mem hne2
      · intro u hu
        rw [h3]
        rw [h1] at hu
        exact listMin_le u hu

/-- Witness for C4: one driver, laps 95s then 93s; the podium's single
entry wins with final-lap time 93 and overall best 93, the minimum of its
two simulated laps. -/
theorem podium_spec_witness :
    ({ position := 1, driver_number := "1", best_lap := 93, final_lap_time := 93} :
        PodiumEntry) ∈ predict_podium [⟨"1", 1, 95⟩, ⟨"1", 2, 93⟩] ∧
    ((93 : ℚ) ∈ driverTimes [⟨"1", 1, 95⟩, ⟨"1", 2, 93⟩] "1" ∧
      ∀ u ∈ driverTimes [⟨"1", 1, 95⟩, ⟨"1", 2, 93⟩] "1", (93 : ℚ) ≤ u) := by
  have hmem : ({ position := 1, driver_number := "1", best_lap := 93, final_lap_time := 93} :
      PodiumEntry) ∈ predict_podium [⟨"1", 1, 95⟩, ⟨"1", 2, 93⟩] := by
    norm_num [predict_podium, finalLapGroup, finalLap, listMaxNat, withPodium, driverTimes,
      listMin, byTime, List.insertionSort, List.orderedInsert]
  have h := (podium_spec [⟨"1", 1, 95⟩, ⟨"1", 2, 93⟩]).2.2.2.2.2 _ hmem
  exact ⟨hmem, h.2.1, h.2.2⟩
